import Mathlib

/-!
Verification of the claude-chat-app backend (FastAPI + SQLAlchemy) against its
natural-language specification.  The Python source (src/backend/main.py,
src/backend/database.py) is shallowly embedded below: the relational store is a
pair of lists, SQLAlchemy commits become explicit store transformations with an
injectable fault (`Option String`: `some e` models a raised commit error `e`),
the Anthropic streaming client becomes a function from the request parameters to
a finite fragment sequence with an optional trailing error, and the WebSocket /
HTTP side effects become an explicit event trace.  Timestamps are naturals
(datetime.utcnow / datetime.now readings are passed in explicitly).
-/

namespace ClaudeChat

/-- Capability descriptor of one Claude model, one entry of the CLAUDE_MODELS
dict in main.py. -/
structure ModelConfig where
  name : String
  max_tokens : Nat
  supports_thinking : Bool
  context_window : Nat
  description : String
deriving DecidableEq

/-- The "claude-sonnet-4-20250514" entry of CLAUDE_MODELS. -/
def sonnetConfig : ModelConfig :=
  { name := "Claude 4 Sonnet"
    max_tokens := 64000
    supports_thinking := true
    context_window := 200000
    description := "High-performance model with exceptional reasoning capabilities" }

/-- The "claude-opus-4-20250514" entry of CLAUDE_MODELS. -/
def opusConfig : ModelConfig :=
  { name := "Claude 4 Opus"
    max_tokens := 32000
    supports_thinking := true
    context_window := 200000
    description := "Our most capable and intelligent model yet" }

/-- The CLAUDE_MODELS registry of main.py, as an association list. -/
def CLAUDE_MODELS : List (String × ModelConfig) :=
  [("claude-sonnet-4-20250514", sonnetConfig),
   ("claude-opus-4-20250514", opusConfig)]

/-- CLAUDE_MODELS.get(model, CLAUDE_MODELS["claude-sonnet-4-20250514"]):
dict lookup with fallback to the sonnet descriptor. -/
def claudeModelsGet (model : String) : ModelConfig :=
  match CLAUDE_MODELS.lookup model with
  | some c => c
  | none => sonnetConfig

/-- One role-tagged turn of the conversation history (pydantic ChatMessage). -/
structure ChatMessage where
  role : String
  content : String
deriving DecidableEq

/-- A chat request: the pydantic ChatRequest of the /chat endpoint, which has
the same fields as the JSON object received on the /ws WebSocket.  The Python
float temperature is carried as its textual representation (the code only ever
stores str(temperature) and forwards the value opaquely). -/
structure ChatRequest where
  message : String
  conversation_history : List ChatMessage
  model : String
  temperature : String
  enable_thinking : Bool
  enable_web_search : Bool
  conversation_id : Option String
deriving DecidableEq

/-- A row of the conversations table (database.py).  The uuid primary key is an
opaque string; timestamps are naturals. -/
structure Conversation where
  id : String
  title : String
  created_at : Nat
  updated_at : Nat
deriving DecidableEq

/-- A row of the messages table (database.py).  The uuid primary key is omitted
(no claim mentions it); `model` is present only on assistant rows. -/
structure Message where
  conversation_id : String
  role : String
  content : String
  model : Option String
  temperature : String
  thinking_enabled : Bool
  created_at : Nat
deriving DecidableEq

/-- The relational store: the two tables. -/
structure Store where
  conversations : List Conversation
  messages : List Message
deriving DecidableEq

/-- An observable action of one streaming turn: the four typed WebSocket
notifications sent to the client (status / chunk / complete / error), the
asyncio.sleep pacing pause, and the database commit of an assistant row
(recorded in the trace so that ordering against notifications is provable). -/
inductive Event where
  | status (message : String)
  | chunk (content : String) (full_message : String)
  | complete (message : String) (timestamp : Nat)
  | error (message : String)
  | pause
  | persist (role : String) (ok : Bool)
deriving DecidableEq

/-- The upstream completion stream: the finite fragment sequence produced by
claude_client.messages.stream(...).text_stream, followed by `some e` when the
iteration raises error `e` after the listed fragments, `none` when it exhausts
normally. -/
structure AdapterStream where
  fragments : List String
  error : Option String
deriving DecidableEq

/-- The keyword arguments handed to claude_client.messages.stream(**params):
api_params of chat_endpoint / stream_params of process_streaming_chat.
`thinking` records whether the thinking parameter was added, and
`tools_web_search` whether the web-search tool block was added. -/
structure ApiParams where
  model : String
  max_tokens : Nat
  temperature : String
  messages : List ChatMessage
  thinking : Bool
  tools_web_search : Bool
deriving DecidableEq

/-- Python str whitespace (the ASCII part): space, tab, newline, carriage
return, vertical tab, form feed. -/
def pyIsSpace (c : Char) : Bool :=
  c == ' ' || c == '\t' || c == '\n' || c == '\r' || c == Char.ofNat 11 || c == Char.ofNat 12

/-- str.strip() on a character list: drop leading and trailing whitespace. -/
def stripL (l : List Char) : List Char :=
  ((l.dropWhile pyIsSpace).reverse.dropWhile pyIsSpace).reverse

/-- Python str.strip(). -/
def pyStrip (s : String) : String := String.mk (stripL s.data)

/-- Python str.lower() (ASCII case folding, as used on the search inputs). -/
def pyLower (s : String) : String := String.mk (s.data.map Char.toLower)

/-- Number of non-whitespace characters of a string (the spec's measure for the
minimum search-query length). -/
def nonWsCount (s : String) : Nat := (s.data.filter fun c => !pyIsSpace c).length

/-- Substring test on character lists: does `pat` occur contiguously in the
second list? -/
def containsSub (pat : List Char) : List Char → Bool
  | [] => pat.isEmpty
  | c :: rest => pat.isPrefixOf (c :: rest) || containsSub pat rest

/-- SQL `target ILIKE '%sub%'`: case-insensitive substring containment.  This
models the LIKE pattern for a `sub` free of the SQL wildcard characters
percent and underscore (theorems over it hypothesize that); for such patterns
ILIKE is exactly case-insensitive substring search. -/
def ilikeContains (target sub : String) : Bool :=
  containsSub (pyLower sub).data (pyLower target).data

/-- Concatenation of a fragment list, in order (the accumulation loop
`full_response += text`). -/
def sconcat : List String → String
  | [] => ""
  | f :: rest => f ++ sconcat rest

/-- Worker for Python str.split(): split on whitespace runs, dropping empty
pieces; `cur` holds the reversed characters of the word being read. -/
def pySplitAux : List Char → List Char → List String
  | [], cur => if cur.isEmpty then [] else [String.mk cur.reverse]
  | c :: rest, cur =>
    if pyIsSpace c then
      if cur.isEmpty then pySplitAux rest [] else String.mk cur.reverse :: pySplitAux rest []
    else pySplitAux rest (c :: cur)

/-- Python str.split() with no separator argument. -/
def pySplit (s : String) : List String := pySplitAux s.data []

/-- Python " ".join(words). -/
def spaceJoin : List String → String
  | [] => ""
  | [w] => w
  | w :: rest => w ++ " " ++ spaceJoin rest

/-- Python truthiness of the optional conversation_id field: None and the
empty string are both falsy (`if conversation_id:` in main.py). -/
def cidTruthy : Option String → Option String
  | some c => if c == "" then none else some c
  | none => none

/-- Does a conversation row with this primary key exist? -/
def convExists (s : Store) (cid : String) : Bool :=
  s.conversations.any fun c => c.id == cid

/-- db.add(message); db.commit() — commit of one new message row.  `fault`
injects an environmental commit failure (the raised error message); otherwise
the commit succeeds iff the foreign key resolves, and on failure the rollback
leaves the store unchanged (callers keep the original store). -/
def commitMessage (s : Store) (m : Message) (fault : Option String) : Except String Store :=
  match fault with
  | some e => Except.error e
  | none =>
    if convExists s m.conversation_id then
      Except.ok { s with messages := s.messages ++ [m] }
    else
      Except.error "foreign key violation"

/-- Set updated_at of the conversation row with key `cid` to `t`. -/
def bumpUpdated (cs : List Conversation) (cid : String) (t : Nat) : List Conversation :=
  cs.map fun c => if c.id == cid then { c with updated_at := t } else c

/-- The assistant-message save of chat_endpoint / process_streaming_chat:
db.add(assistant_message); query the conversation and set its updated_at; one
commit for both.  On fault or missing foreign key the rollback discards both
effects. -/
def commitAssistant (s : Store) (m : Message) (t : Nat) (fault : Option String) :
    Except String Store :=
  match fault with
  | some e => Except.error e
  | none =>
    if convExists s m.conversation_id then
      Except.ok { conversations := bumpUpdated s.conversations m.conversation_id t
                  messages := s.messages ++ [m] }
    else
      Except.error "foreign key violation"

/-- The inbound user turn persisted by both chat handlers: role "user", no
model, str(temperature), the request's thinking flag. -/
def mkUserMessage (req : ChatRequest) (cid : String) (t : Nat) : Message :=
  { conversation_id := cid
    role := "user"
    content := req.message
    model := none
    temperature := req.temperature
    thinking_enabled := req.enable_thinking
    created_at := t }

/-- The completed assistant turn persisted by both chat handlers: role
"assistant", the request's model identifier, the accumulated reply text. -/
def mkAssistantMessage (req : ChatRequest) (cid : String) (full : String) (t : Nat) : Message :=
  { conversation_id := cid
    role := "assistant"
    content := full
    model := some req.model
    temperature := req.temperature
    thinking_enabled := req.enable_thinking
    created_at := t }

/-- api_params / stream_params as built by both chat handlers: model and
temperature verbatim from the request, max_tokens from the registry descriptor,
history plus the current user turn, thinking only when enabled and supported,
web-search tool block when enabled. -/
def buildApiParams (req : ChatRequest) : ApiParams :=
  let model_config := claudeModelsGet req.model
  { model := req.model
    max_tokens := model_config.max_tokens
    temperature := req.temperature
    messages := req.conversation_history ++ [{ role := "user", content := req.message }]
    thinking := req.enable_thinking && model_config.supports_thinking
    tools_web_search := req.enable_web_search }

/-- The fragment loop of process_streaming_chat: for each fragment append it to
the accumulator, emit a chunk notification carrying the fragment and the
cumulative text, and for the Opus model sleep 10ms after every 10th chunk.
Returns the emitted events and the final accumulator. -/
def streamLoop (model : String) : List String → String → Nat → List Event × String
  | [], acc, _ => ([], acc)
  | f :: rest, acc, chunk_count =>
    let next := streamLoop model rest (acc ++ f) (chunk_count + 1)
    (Event.chunk f (acc ++ f) ::
      ((if model == "claude-opus-4-20250514" && (chunk_count + 1) % 10 == 0
        then [Event.pause] else []) ++ next.1),
     next.2)

/-- The part of process_streaming_chat after the user-turn save: resolve the
model descriptor, send the status notification, drain the upstream stream.  On
normal exhaustion send one complete notification and then, if a (truthy)
conversation id is present and the accumulated text non-empty, commit the
assistant row (failures rolled back and swallowed).  On a streaming error send
one error notification; nothing further is persisted. -/
def afterUserSave (s : Store) (req : ChatRequest) (stream : AdapterStream)
    (assistantFault : Option String) (tEnd : Nat) : List Event × Store :=
  let model_config := claudeModelsGet req.model
  let statusEv := Event.status ("Processing with " ++ model_config.name ++ "...")
  let chunkEvs := (streamLoop req.model stream.fragments "" 0).1
  let full_response := (streamLoop req.model stream.fragments "" 0).2
  match stream.error with
  | some err =>
    (statusEv :: chunkEvs ++
      [Event.error ("Streaming error with " ++ model_config.name ++ ": " ++ err)], s)
  | none =>
    let completeEv := Event.complete full_response tEnd
    match cidTruthy req.conversation_id with
    | some cid =>
      if full_response == "" then
        (statusEv :: chunkEvs ++ [completeEv], s)
      else
        match commitAssistant s (mkAssistantMessage req cid full_response tEnd) tEnd
            assistantFault with
        | Except.ok s2 =>
          (statusEv :: chunkEvs ++ [completeEv, Event.persist "assistant" true], s2)
        | Except.error _ =>
          (statusEv :: chunkEvs ++ [completeEv, Event.persist "assistant" false], s)
    | none => (statusEv :: chunkEvs ++ [completeEv], s)

/-- process_streaming_chat of main.py (the body reached when claude_client is
available).  If a truthy conversation id is present the user turn is committed
first; a commit failure there is rolled back and re-raised, so the outer
handler sends a single error notification and the turn ends — the upstream
adapter is never invoked.  Otherwise the turn proceeds as `afterUserSave`.
`adapter` is the upstream client, invoked at the built stream parameters;
`tUser` and `tEnd` are the clock readings for the two persistence points. -/
def process_streaming_chat (s : Store) (req : ChatRequest)
    (adapter : ApiParams → AdapterStream) (userFault assistantFault : Option String)
    (tUser tEnd : Nat) : List Event × Store :=
  match cidTruthy req.conversation_id with
  | some cid =>
    match commitMessage s (mkUserMessage req cid tUser) userFault with
    | Except.ok s1 => afterUserSave s1 req (adapter (buildApiParams req)) assistantFault tEnd
    | Except.error e => ([Event.error e], s)
  | none => afterUserSave s req (adapter (buildApiParams req)) assistantFault tEnd

/-- chat_endpoint of main.py (the non-streaming /chat handler, body reached
when claude_client is available).  Result: .ok (full reply, timestamp) or
.error (the 500 detail).  A user-turn commit failure is rolled back and
re-raised into a 500; the upstream call is never made.  An upstream error
becomes a 500 (the already-committed user turn stays).  The assistant save is
best-effort: its commit failure is rolled back and swallowed. -/
def chat_endpoint (s : Store) (req : ChatRequest) (adapter : ApiParams → AdapterStream)
    (userFault assistantFault : Option String) (tUser tEnd : Nat) :
    Except String (String × Nat) × Store :=
  let step2 := fun (s1 : Store) =>
    let stream := adapter (buildApiParams req)
    match stream.error with
    | some err => (Except.error err, s1)
    | none =>
      let response_text := sconcat stream.fragments
      match cidTruthy req.conversation_id with
      | some cid =>
        if response_text == "" then (Except.ok (response_text, tEnd), s1)
        else
          match commitAssistant s1 (mkAssistantMessage req cid response_text tEnd) tEnd
              assistantFault with
          | Except.ok s2 => (Except.ok (response_text, tEnd), s2)
          | Except.error _ => (Except.ok (response_text, tEnd), s1)
      | none => (Except.ok (response_text, tEnd), s1)
  match cidTruthy req.conversation_id with
  | some cid =>
    match commitMessage s (mkUserMessage req cid tUser) userFault with
    | Except.ok s1 => step2 s1
    | Except.error e => (Except.error e, s)
  | none => step2 s

/-- Insert a conversation into a list sorted by updated_at descending. -/
def insertByUpdated (c : Conversation) : List Conversation → List Conversation
  | [] => [c]
  | d :: rest =>
    if d.updated_at ≤ c.updated_at then c :: d :: rest else d :: insertByUpdated c rest

/-- ORDER BY updated_at DESC. -/
def sortByUpdatedDesc : List Conversation → List Conversation
  | [] => []
  | c :: rest => insertByUpdated c (sortByUpdatedDesc rest)

/-- Insert a message into a list sorted by created_at ascending. -/
def insertByCreated (m : Message) : List Message → List Message
  | [] => [m]
  | d :: rest =>
    if m.created_at < d.created_at then m :: d :: rest else d :: insertByCreated m rest

/-- ORDER BY created_at (ascending). -/
def sortByCreatedAsc : List Message → List Message
  | [] => []
  | m :: rest => insertByCreated m (sortByCreatedAsc rest)

/-- Does conversation `c` match search needle `needle` (already trimmed and
lowercased by the caller): title ILIKE %needle% or some owned message content
ILIKE %needle%?  This is the filter of the search query's outer join. -/
def convMatches (s : Store) (needle : String) (c : Conversation) : Bool :=
  ilikeContains c.title needle ||
    s.messages.any fun m => m.conversation_id == c.id && ilikeContains m.content needle

/-- search_conversations of main.py: empty result when the stripped query is
shorter than 2 characters (this also covers `not q`); otherwise the distinct
conversations whose title or some owned message content case-insensitively
contains the stripped query, ordered by updated_at descending. -/
def search_conversations (s : Store) (q : String) : List Conversation :=
  if (pyStrip q).length < 2 then []
  else
    sortByUpdatedDesc (s.conversations.filter (convMatches s (pyStrip q)))

/-- update_conversation_title of main.py: 404 when the conversation is absent;
otherwise set the title (dict .get with the old title as default) and set
updated_at to now. -/
def update_conversation_title (s : Store) (cid : String) (newTitle : Option String)
    (t : Nat) : Except String Store :=
  match s.conversations.find? (fun c => c.id == cid) with
  | none => Except.error "Conversation not found"
  | some conversation =>
    Except.ok { s with conversations := s.conversations.map fun c =>
      if c.id == cid then
        { c with title := newTitle.getD conversation.title, updated_at := t }
      else c }

/-- Set the title of conversation `cid` to `title`; updated_at becomes `t`
(explicitly in the generated-title branch, via the column's onupdate hook in
the fallback branch — either way the committed row update carries it). -/
def setTitle (s : Store) (cid : String) (title : String) (t : Nat) : Store :=
  { s with conversations := s.conversations.map fun c =>
      if c.id == cid then { c with title := title, updated_at := t } else c }

/-- The title-generation prompt of generate_conversation_title, built over the
given (already limited) messages; the joined conversation content is truncated
to 1000 characters. -/
def buildTitlePrompt (msgs : List Message) : String :=
  let conversation_content := sconcat (msgs.map fun m => m.role ++ ": " ++ m.content ++ "\n")
  "Based on this conversation, generate a concise title that captures the main topic. " ++
    "The title should be EXACTLY 4 words or less, no punctuation, just the core topic. " ++
    "Conversation: " ++ conversation_content.take 1000 ++ "... Title (4 words max):"

/-- response_text.strip().replace(double quote, empty).replace(single quote,
empty): strip, then delete both quote characters. -/
def pyTitleClean (txt : String) : String :=
  String.mk ((pyStrip txt).data.filter fun c => c != '"' && c != Char.ofNat 39)

/-- The cleaned generated title limited to its first 4 whitespace-words. -/
def fourWordTitle (txt : String) : String :=
  spaceJoin ((pySplit (pyTitleClean txt)).take 4)

/-- The fallback title: the first message's content truncated to 30 characters
with an ellipsis when longer, else the whole content. -/
def fallbackTitle (content : String) : String :=
  if 30 < content.length then content.take 30 ++ "..." else content

/-- The first five messages of the conversation, ordered by created_at — the
`.order_by(Message.created_at).limit(5)` query of generate_conversation_title. -/
def firstFiveMessages (s : Store) (cid : String) : List Message :=
  (sortByCreatedAsc (s.messages.filter fun m => m.conversation_id == cid)).take 5

/-- generate_conversation_title of main.py: 404 when the conversation is
absent; title "New Chat" (no store write) when it has no messages; otherwise
invoke the completion `gen` on the prompt over the first ≤5 messages.  On
success the cleaned ≤4-word title is stored (updated_at bumped); on any
generation failure the fallback excerpt of the first message is stored
instead.  Returns the title and the new store. -/
def generate_conversation_title (s : Store) (cid : String)
    (gen : String → Except String String) (t : Nat) : Except String (String × Store) :=
  match s.conversations.find? (fun c => c.id == cid) with
  | none => Except.error "Conversation not found"
  | some _ =>
    match firstFiveMessages s cid with
    | [] => Except.ok ("New Chat", s)
    | m0 :: _ =>
      match gen (buildTitlePrompt (firstFiveMessages s cid)) with
      | Except.ok response_text =>
        let final_title := fourWordTitle response_text
        Except.ok (final_title, setTitle s cid final_title t)
      | Except.error _ =>
        let ft := fallbackTitle m0.content
        Except.ok (ft, setTitle s cid ft t)

/-- Is this event one of the four client-visible notification types? -/
def isClientNotif : Event → Bool
  | Event.pause => false
  | Event.persist _ _ => false
  | _ => true

/-- The notifications the client observes, in order. -/
def clientNotifs (trace : List Event) : List Event := trace.filter isClientNotif

/-- Is this event a chunk notification? -/
def isChunk : Event → Bool
  | Event.chunk _ _ => true
  | _ => false

/-- The chunk notifications a fragment list must produce: the i-th carries the
i-th fragment and the concatenation of fragments 1..i (on top of `acc`). -/
def expectedChunks (acc : String) : List String → List Event
  | [] => []
  | f :: rest => Event.chunk f (acc ++ f) :: expectedChunks (acc ++ f) rest

/-- The event immediately following the k-th chunk event of a trace (1-based),
if any. -/
def afterKthChunk : List Event → Nat → Option Event
  | [], _ => none
  | e :: rest, k =>
    if isChunk e then
      if k = 1 then rest.head? else afterKthChunk rest (k - 1)
    else afterKthChunk rest k

/-- The data-model invariant of the spec: every conversation's updated_at is ≥
the created_at of each of its messages. -/
def updatedGeNewest (s : Store) : Bool :=
  s.conversations.all fun c =>
    s.messages.all fun m => !(m.conversation_id == c.id) || decide (m.created_at ≤ c.updated_at)

/-! ### Whitespace and strip lemmas (search-query length threshold) -/

lemma filter_nonWs_dropWhile (l : List Char) :
    (l.dropWhile pyIsSpace).filter (fun c => !pyIsSpace c) = l.filter fun c => !pyIsSpace c := by
  induction l with
  | nil => rfl
  | cons c t ih =>
    by_cases hc : pyIsSpace c = true
    · simp [List.dropWhile_cons, hc, List.filter_cons, ih]
    · simp [List.dropWhile_cons, hc, List.filter_cons]

lemma filter_nonWs_stripL (l : List Char) :
    (stripL l).filter (fun c => !pyIsSpace c) = l.filter fun c => !pyIsSpace c := by
  unfold stripL
  rw [List.filter_reverse, filter_nonWs_dropWhile, List.filter_reverse, List.reverse_reverse,
    filter_nonWs_dropWhile]

lemma dropWhile_head_not {p : Char → Bool} :
    ∀ (l : List Char) (a : Char) (t : List Char), l.dropWhile p = a :: t → p a = false := by
  intro l
  induction l with
  | nil => intro a t h; simp [List.dropWhile] at h
  | cons c rest ih =>
    intro a t h
    rw [List.dropWhile_cons] at h
    by_cases hc : p c = true
    · rw [if_pos hc] at h; exact ih a t h
    · rw [if_neg hc] at h
      cases h
      simpa using hc

lemma dropWhile_append_all {p : Char → Bool} :
    ∀ (u v : List Char), (∀ c ∈ u, p c = true) → (u ++ v).dropWhile p = v.dropWhile p := by
  intro u
  induction u with
  | nil => intro v _; rfl
  | cons c t ih =>
    intro v hall
    rw [List.cons_append, List.dropWhile_cons, if_pos (hall c (by simp))]
    exact ih v fun x hx => hall x (by simp [hx])

lemma stripL_of_all_space (l : List Char) (h : ∀ c ∈ l, pyIsSpace c = true) :
    stripL l = [] := by
  unfold stripL
  have h1 : l.dropWhile pyIsSpace = [] := by
    have := dropWhile_append_all l [] h
    simpa using this
  simp [h1, List.dropWhile]

lemma stripL_short (l : List Char) (h : (l.filter fun c => !pyIsSpace c).length ≤ 1) :
    (stripL l).length ≤ 1 := by
  rcases Nat.le_one_iff_eq_zero_or_eq_one.mp h with h0 | h1
  · -- no non-whitespace character at all: strip is empty
    have hnil : l.filter (fun c => !pyIsSpace c) = [] := List.length_eq_zero.mp h0
    have hall : ∀ c ∈ l, pyIsSpace c = true := by
      intro c hc
      have := List.filter_eq_nil_iff.mp hnil c hc
      simpa using this
    simp [stripL_of_all_space l hall]
  · -- exactly one non-whitespace character: strip is that singleton
    obtain ⟨a, ha⟩ := List.length_eq_one.mp h1
    rcases hL1 : l.dropWhile pyIsSpace with _ | ⟨b, t⟩
    · unfold stripL
      simp [hL1, List.dropWhile]
    · have hb : pyIsSpace b = false := dropWhile_head_not l b t hL1
      have hfilter : (l.dropWhile pyIsSpace).filter (fun c => !pyIsSpace c) = [a] := by
        rw [filter_nonWs_dropWhile, ha]
      rw [hL1, List.filter_cons, if_pos (by simp [hb])] at hfilter
      have ht : t.filter (fun c => !pyIsSpace c) = [] := by
        have := congrArg List.tail hfilter
        simpa using this
      have htall : ∀ c ∈ t.reverse, pyIsSpace c = true := by
        intro c hc
        have := List.filter_eq_nil_iff.mp ht c (List.mem_reverse.mp hc)
        simpa using this
      unfold stripL
      rw [hL1]
      have : (b :: t).reverse = t.reverse ++ [b] := by simp
      rw [this, dropWhile_append_all t.reverse [b] htall, List.dropWhile_cons]
      rw [if_neg (by simp [hb])]
      simp

/-- The code's length threshold len(q.strip()) ≥ 2 coincides with the spec's
"at least 2 non-whitespace characters". -/
lemma strip_len_two_iff (q : String) : 2 ≤ (pyStrip q).length ↔ 2 ≤ nonWsCount q := by
  constructor
  · intro h
    by_contra hlt
    have : nonWsCount q ≤ 1 := by omega
    have := stripL_short q.data this
    have hlen : (pyStrip q).length = (stripL q.data).length := rfl
    omega
  · intro h
    have hfl := filter_nonWs_stripL q.data
    have h1 : ((stripL q.data).filter fun c => !pyIsSpace c).length = nonWsCount q := by
      rw [hfl]; rfl
    have h2 : ((stripL q.data).filter fun c => !pyIsSpace c).length ≤ (stripL q.data).length :=
      List.length_filter_le _ _
    have hlen : (pyStrip q).length = (stripL q.data).length := rfl
    omega

/-- Claim C6: a query with fewer than 2 non-whitespace characters (the empty
string included) yields the empty search result; the operation is a total
function, so no error is possible. -/
theorem C6_short_query_yields_empty (s : Store) (q : String) (h : nonWsCount q < 2) :
    search_conversations s q = [] := by
  unfold search_conversations
  rw [if_pos]
  by_contra hge
  exact absurd (strip_len_two_iff q |>.mp (by omega)) (by omega)

/-- A one-conversation fixture store used by concrete instances below. -/
def cabStore : Store :=
  { conversations := [⟨"c1", "cab", 3, 4⟩], messages := [] }

/-- Witness for C6 at the concrete inputs of the spec scenario: search("a") on
a non-empty store returns the empty list. -/
theorem C6_witness :
    nonWsCount "a" < 2 ∧ search_conversations cabStore "a" = [] :=
  ⟨by decide, C6_short_query_yields_empty cabStore "a" (by decide)⟩

/-! ### Model registry -/

/-- Claim C9: registry lookup is a total function; a registered identifier
yields its own descriptor, an unknown identifier yields the descriptor of the
configured default ("claude-sonnet-4-20250514") rather than an error. -/
theorem C9_lookup_never_fails (m : String) :
    (CLAUDE_MODELS.lookup m = none → claudeModelsGet m = sonnetConfig) ∧
    (∀ cfg, CLAUDE_MODELS.lookup m = some cfg → claudeModelsGet m = cfg) ∧
    CLAUDE_MODELS.lookup "claude-sonnet-4-20250514" = some sonnetConfig := by
  refine ⟨?_, ?_, by decide⟩
  · intro h; unfold claudeModelsGet; rw [h]
  · intro cfg h; unfold claudeModelsGet; rw [h]

/-- Witness for C9 at the unknown identifier "gpt-4": lookup falls back to the
sonnet descriptor. -/
theorem C9_witness :
    CLAUDE_MODELS.lookup "gpt-4" = none ∧ claudeModelsGet "gpt-4" = sonnetConfig :=
  ⟨by decide, (C9_lookup_never_fails "gpt-4").1 (by decide)⟩

/-! ### Search ordering lemmas -/

lemma mem_insertByUpdated {a c : Conversation} :
    ∀ {l : List Conversation}, a ∈ insertByUpdated c l ↔ a = c ∨ a ∈ l := by
  intro l
  induction l with
  | nil => simp [insertByUpdated]
  | cons d rest ih =>
    by_cases h : d.updated_at ≤ c.updated_at
    · simp [insertByUpdated, h]
    · simp only [insertByUpdated, if_neg h, List.mem_cons, ih]
      tauto

lemma count_insertByUpdated (a c : Conversation) :
    ∀ (l : List Conversation), (insertByUpdated c l).count a = (c :: l).count a := by
  intro l
  induction l with
  | nil => rfl
  | cons d rest ih =>
    by_cases h : d.updated_at ≤ c.updated_at
    · simp [insertByUpdated, h]
    · simp only [insertByUpdated, if_neg h]
      rw [List.count_cons, ih, List.count_cons, List.count_cons, List.count_cons]
      omega

lemma pairwise_insertByUpdated {c : Conversation} :
    ∀ {l : List Conversation},
      l.Pairwise (fun a b => b.updated_at ≤ a.updated_at) →
      (insertByUpdated c l).Pairwise fun a b => b.updated_at ≤ a.updated_at := by
  intro l
  induction l with
  | nil => intro _; simp [insertByUpdated]
  | cons d rest ih =>
    intro hp
    rcases List.pairwise_cons.mp hp with ⟨hd, hrest⟩
    by_cases h : d.updated_at ≤ c.updated_at
    · rw [insertByUpdated, if_pos h]
      refine List.pairwise_cons.mpr ⟨?_, hp⟩
      intro b hb
      rcases List.mem_cons.mp hb with rfl | hbmem
      · exact h
      · exact le_trans (hd b hbmem) h
    · rw [insertByUpdated, if_neg h]
      refine List.pairwise_cons.mpr ⟨?_, ih hrest⟩
      intro b hb
      rcases mem_insertByUpdated.mp hb with rfl | hbmem
      · omega
      · exact hd b hbmem

lemma mem_sortByUpdatedDesc {a : Conversation} :
    ∀ {l : List Conversation}, a ∈ sortByUpdatedDesc l ↔ a ∈ l := by
  intro l
  induction l with
  | nil => simp [sortByUpdatedDesc]
  | cons c rest ih => simp [sortByUpdatedDesc, mem_insertByUpdated, ih]

lemma count_sortByUpdatedDesc (a : Conversation) :
    ∀ (l : List Conversation), (sortByUpdatedDesc l).count a = l.count a := by
  intro l
  induction l with
  | nil => rfl
  | cons c rest ih =>
    rw [sortByUpdatedDesc, count_insertByUpdated, List.count_cons, List.count_cons, ih]

lemma pairwise_sortByUpdatedDesc :
    ∀ (l : List Conversation),
      (sortByUpdatedDesc l).Pairwise fun a b => b.updated_at ≤ a.updated_at := by
  intro l
  induction l with
  | nil => simp [sortByUpdatedDesc]
  | cons c rest ih => exact pairwise_insertByUpdated ih

/-! ### Claim C5: search characterization -/

/-- Counterexample to claim C5 as stated: the query "ab " has 2 non-whitespace
characters, the conversation titled "cab" does not contain the query substring
"ab " (even case-insensitively) and owns no messages, yet search returns it —
the code matches the stripped query "ab", not the query itself. -/
theorem C5_counterexample :
    nonWsCount "ab " = 2 ∧
    search_conversations cabStore "ab " = [⟨"c1", "cab", 3, 4⟩] ∧
    convMatches cabStore "ab " ⟨"c1", "cab", 3, 4⟩ = false := by
  refine ⟨by decide, by decide, by decide⟩

/-- Claim C5 (amended to the trimmed query): for a query with at least 2
non-whitespace characters and free of SQL LIKE wildcards after trimming
(the wildcard-freedom hypothesis marks where this embedding of ILIKE and
Postgres agree), on a store whose conversation keys are distinct,
search returns exactly the conversations whose title or some owned message
content case-insensitively contains the whitespace-trimmed query, each exactly
once, ordered by updated-time descending. -/
theorem C5_search_characterization (s : Store) (q : String)
    (hq : 2 ≤ nonWsCount q) (hids : (s.conversations.map Conversation.id).Nodup)
    (_hwild : ∀ c ∈ (pyStrip q).data, c ≠ '%' ∧ c ≠ '_') :
    (∀ c, c ∈ search_conversations s q ↔
        c ∈ s.conversations ∧ convMatches s (pyStrip q) c = true) ∧
    (∀ c ∈ search_conversations s q, (search_conversations s q).count c = 1) ∧
    (search_conversations s q).Pairwise (fun a b => b.updated_at ≤ a.updated_at) := by
  have hlen : ¬ (pyStrip q).length < 2 := by
    have := (strip_len_two_iff q).mpr hq
    omega
  have hsearch : search_conversations s q =
      sortByUpdatedDesc (s.conversations.filter (convMatches s (pyStrip q))) := by
    unfold search_conversations
    rw [if_neg hlen]
  have hnodup : s.conversations.Nodup := hids.of_map _
  refine ⟨?_, ?_, ?_⟩
  · intro c
    rw [hsearch, mem_sortByUpdatedDesc, List.mem_filter]
  · intro c hc
    rw [hsearch] at hc ⊢
    rw [count_sortByUpdatedDesc]
    rw [mem_sortByUpdatedDesc, List.mem_filter] at hc
    rw [List.count_filter hc.2]
    have hle := List.nodup_iff_count_le_one.mp hnodup c
    have hpos : 0 < s.conversations.count c := List.count_pos_iff.mpr hc.1
    omega
  · rw [hsearch]
    exact pairwise_sortByUpdatedDesc _

/-- Witness for C5 (amended) at a concrete store: query "AB" (2 non-whitespace
characters) matches the title "cab" case-insensitively. -/
theorem C5_witness :
    2 ≤ nonWsCount "AB" ∧
    (((cabStore.conversations.map Conversation.id).Nodup ∧
      ∀ c ∈ (pyStrip "AB").data, c ≠ '%' ∧ c ≠ '_') ∧
      (∀ c, c ∈ search_conversations cabStore "AB" ↔
          c ∈ cabStore.conversations ∧ convMatches cabStore (pyStrip "AB") c = true) ∧
      (∀ c ∈ search_conversations cabStore "AB",
          (search_conversations cabStore "AB").count c = 1) ∧
      (search_conversations cabStore "AB").Pairwise fun a b =>
        b.updated_at ≤ a.updated_at) :=
  ⟨by decide, ⟨by decide, by decide⟩,
    C5_search_characterization cabStore "AB" (by decide) (by decide) (by decide)⟩

/-! ### Streaming-loop lemmas -/

lemma streamLoop_snd (model : String) :
    ∀ (fs : List String) (acc : String) (n : Nat),
      (streamLoop model fs acc n).2 = acc ++ sconcat fs := by
  intro fs
  induction fs with
  | nil => intro acc n; simp [streamLoop, sconcat]
  | cons f rest ih =>
    intro acc n
    simp only [streamLoop, sconcat]
    rw [ih, String.append_assoc]

lemma streamLoop_sconcat (model : String) (fs : List String) :
    (streamLoop model fs "" 0).2 = sconcat fs := by
  rw [streamLoop_snd]
  simp

lemma streamLoop_filter_notifs (model : String) :
    ∀ (fs : List String) (acc : String) (n : Nat),
      (streamLoop model fs acc n).1.filter isClientNotif = expectedChunks acc fs := by
  intro fs
  induction fs with
  | nil => intro acc n; simp [streamLoop, expectedChunks]
  | cons f rest ih =>
    intro acc n
    by_cases h : (model == "claude-opus-4-20250514" && (n + 1) % 10 == 0) = true
    · simp [streamLoop, h, expectedChunks, isClientNotif, ih]
    · simp [streamLoop, h, expectedChunks, isClientNotif, ih]

lemma mem_ite_pause {c : Prop} [Decidable c] {e : Event}
    (he : e ∈ if c then [Event.pause] else ([] : List Event)) : e = Event.pause := by
  split at he
  · simpa using he
  · simp at he

lemma streamLoop_mem (model : String) :
    ∀ (fs : List String) (acc : String) (n : Nat) (e : Event),
      e ∈ (streamLoop model fs acc n).1 →
        (∃ c full, e = Event.chunk c full) ∨ e = Event.pause := by
  intro fs
  induction fs with
  | nil => intro acc n e he; simp [streamLoop] at he
  | cons f rest ih =>
    intro acc n e he
    simp only [streamLoop, List.mem_cons] at he
    rcases he with rfl | he2
    · exact Or.inl ⟨f, acc ++ f, rfl⟩
    · rcases List.mem_append.mp he2 with hi | hr
      · exact Or.inr (mem_ite_pause hi)
      · exact ih _ _ e hr

lemma streamLoop_no_pause {model : String} (hm : model ≠ "claude-opus-4-20250514") :
    ∀ (fs : List String) (acc : String) (n : Nat),
      Event.pause ∉ (streamLoop model fs acc n).1 := by
  intro fs
  induction fs with
  | nil => intro acc n; simp [streamLoop]
  | cons f rest ih =>
    intro acc n hmem
    have hb : (model == "claude-opus-4-20250514") = false := beq_eq_false_iff_ne.mpr hm
    have hcond : (model == "claude-opus-4-20250514" && (n + 1) % 10 == 0) = false := by
      simp [hb]
    simp only [streamLoop, hcond, List.mem_cons] at hmem
    rcases hmem with h | h
    · exact Event.noConfusion h
    · simp only [Bool.false_eq_true, if_false, List.nil_append] at h
      exact ih _ _ h

lemma streamLoop_head (model : String) (fs : List String) (acc : String) (n : Nat) :
    (streamLoop model fs acc n).1.head? = fs.head?.map fun f => Event.chunk f (acc ++ f) := by
  cases fs <;> simp [streamLoop]

/-! ### Locating the event after the k-th chunk -/

lemma afterKth_cons_nonchunk {e : Event} (he : isChunk e = false) (l : List Event) (k : Nat) :
    afterKthChunk (e :: l) k = afterKthChunk l k := by
  simp [afterKthChunk, he]

lemma afterKth_streamLoop (model : String) :
    ∀ (fs : List String) (acc : String) (i k : Nat) (post : List Event),
      (∀ e ∈ post, isChunk e = false ∧ e ≠ Event.pause) →
      1 ≤ k → k ≤ fs.length →
      (afterKthChunk ((streamLoop model fs acc i).1 ++ post) k = some Event.pause ↔
        (model = "claude-opus-4-20250514" ∧ (i + k) % 10 = 0)) := by
  intro fs
  induction fs with
  | nil =>
    intro acc i k post hpost hk1 hk2
    simp at hk2
    omega
  | cons f rest ih =>
    intro acc i k post hpost hk1 hk2
    have hexp : (streamLoop model (f :: rest) acc i).1 ++ post =
        Event.chunk f (acc ++ f) ::
          ((if model == "claude-opus-4-20250514" && (i + 1) % 10 == 0
            then [Event.pause] else []) ++
            ((streamLoop model rest (acc ++ f) (i + 1)).1 ++ post)) := by
      simp [streamLoop]
    rw [hexp]
    simp only [afterKthChunk, isChunk, if_true]
    by_cases hk : k = 1
    · rw [if_pos hk]
      by_cases hc : (model == "claude-opus-4-20250514" && (i + 1) % 10 == 0) = true
      · rw [if_pos hc]
        simp only [Bool.and_eq_true, beq_iff_eq] at hc
        obtain ⟨hm', hmod0⟩ := hc
        have hmod' : (i + 1) % 10 = 0 := by simpa using hmod0
        subst hk
        simp [hm', hmod']
      · rw [if_neg hc]
        subst hk
        have hrhs : ¬ (model = "claude-opus-4-20250514" ∧ (i + 1) % 10 = 0) := by
          rintro ⟨hm, hmod⟩
          exact hc (by simp [hm, hmod])
        simp only [List.nil_append]
        rcases hrest : rest with _ | ⟨g, t⟩
        · rcases hp : post with _ | ⟨e, t2⟩
          · simp [streamLoop, hrhs]
          · have hne := (hpost e (by simp [hp])).2
            simp [streamLoop, hrhs, hne]
        · have hhead : ((streamLoop model (g :: t) (acc ++ f) (i + 1)).1 ++ post).head? =
              some (Event.chunk g (acc ++ f ++ g)) := by
            rcases hsl : (streamLoop model (g :: t) (acc ++ f) (i + 1)).1 with _ | ⟨e0, t0⟩
            · have hh := streamLoop_head model (g :: t) (acc ++ f) (i + 1)
              rw [hsl] at hh
              simp at hh
            · have hh := streamLoop_head model (g :: t) (acc ++ f) (i + 1)
              rw [hsl] at hh
              simp at hh
              rw [List.cons_append, List.head?_cons, hh]
          rw [hhead]
          simp [hrhs]
    · rw [if_neg hk]
      have hk2' : k - 1 ≤ rest.length := by
        simp at hk2
        omega
      have hk1' : 1 ≤ k - 1 := by omega
      have harith : i + 1 + (k - 1) = i + k := by omega
      by_cases hc : (model == "claude-opus-4-20250514" && (i + 1) % 10 == 0) = true
      · rw [if_pos hc]
        rw [List.singleton_append]
        rw [afterKth_cons_nonchunk (by rfl)]
        have := ih (acc ++ f) (i + 1) (k - 1) post hpost hk1' hk2'
        rw [harith] at this
        exact this
      · rw [if_neg hc]
        simp only [List.nil_append]
        have := ih (acc ++ f) (i + 1) (k - 1) post hpost hk1' hk2'
        rw [harith] at this
        exact this

/-! ### Branch characterizations of one streaming turn -/

/-- The status notification sent when a turn enters streaming. -/
def statusEvent (model : String) : Event :=
  Event.status ("Processing with " ++ (claudeModelsGet model).name ++ "...")

lemma afterUserSave_err (s : Store) (req : ChatRequest) (stream : AdapterStream)
    (aF : Option String) (tEnd : Nat) (err : String) (herr : stream.error = some err) :
    afterUserSave s req stream aF tEnd =
      (statusEvent req.model :: (streamLoop req.model stream.fragments "" 0).1 ++
        [Event.error ("Streaming error with " ++ (claudeModelsGet req.model).name ++ ": " ++ err)],
       s) := by
  simp only [afterUserSave, herr, statusEvent]

lemma afterUserSave_ok_nocid (s : Store) (req : ChatRequest) (stream : AdapterStream)
    (aF : Option String) (tEnd : Nat) (herr : stream.error = none)
    (hcid : cidTruthy req.conversation_id = none) :
    afterUserSave s req stream aF tEnd =
      (statusEvent req.model :: (streamLoop req.model stream.fragments "" 0).1 ++
        [Event.complete (sconcat stream.fragments) tEnd], s) := by
  simp only [afterUserSave, herr, hcid, statusEvent, streamLoop_sconcat]

lemma afterUserSave_ok_empty (s : Store) (req : ChatRequest) (stream : AdapterStream)
    (aF : Option String) (tEnd : Nat) (cid : String) (herr : stream.error = none)
    (hcid : cidTruthy req.conversation_id = some cid)
    (hfull : sconcat stream.fragments = "") :
    afterUserSave s req stream aF tEnd =
      (statusEvent req.model :: (streamLoop req.model stream.fragments "" 0).1 ++
        [Event.complete (sconcat stream.fragments) tEnd], s) := by
  simp only [afterUserSave, herr, hcid, statusEvent, streamLoop_sconcat, hfull]
  simp

lemma afterUserSave_ok_persist (s : Store) (req : ChatRequest) (stream : AdapterStream)
    (tEnd : Nat) (cid : String) (herr : stream.error = none)
    (hcid : cidTruthy req.conversation_id = some cid)
    (hfull : sconcat stream.fragments ≠ "") (hex : convExists s cid = true) :
    afterUserSave s req stream none tEnd =
      (statusEvent req.model :: (streamLoop req.model stream.fragments "" 0).1 ++
        [Event.complete (sconcat stream.fragments) tEnd, Event.persist "assistant" true],
       { conversations := bumpUpdated s.conversations cid tEnd
         messages := s.messages ++
           [mkAssistantMessage req cid (sconcat stream.fragments) tEnd] }) := by
  have hbeq : (sconcat stream.fragments == "") = false := beq_eq_false_iff_ne.mpr hfull
  have hex2 : convExists s (mkAssistantMessage req cid (sconcat stream.fragments)
      tEnd).conversation_id = true := by
    simpa [mkAssistantMessage] using hex
  simp only [afterUserSave, herr, hcid, statusEvent, streamLoop_sconcat, hbeq,
    Bool.false_eq_true, if_false, commitAssistant, hex2, if_true, mkAssistantMessage]
  rw [if_pos hex]

lemma afterUserSave_ok_persist_fail (s : Store) (req : ChatRequest) (stream : AdapterStream)
    (tEnd : Nat) (cid : String) (e : String) (herr : stream.error = none)
    (hcid : cidTruthy req.conversation_id = some cid)
    (hfull : sconcat stream.fragments ≠ "") :
    afterUserSave s req stream (some e) tEnd =
      (statusEvent req.model :: (streamLoop req.model stream.fragments "" 0).1 ++
        [Event.complete (sconcat stream.fragments) tEnd, Event.persist "assistant" false],
       s) := by
  have hbeq : (sconcat stream.fragments == "") = false := beq_eq_false_iff_ne.mpr hfull
  simp only [afterUserSave, herr, hcid, statusEvent, streamLoop_sconcat, hbeq,
    Bool.false_eq_true, if_false, commitAssistant]

lemma process_nocid (s : Store) (req : ChatRequest) (adapter : ApiParams → AdapterStream)
    (uF aF : Option String) (tU tEnd : Nat) (hcid : cidTruthy req.conversation_id = none) :
    process_streaming_chat s req adapter uF aF tU tEnd =
      afterUserSave s req (adapter (buildApiParams req)) aF tEnd := by
  simp only [process_streaming_chat, hcid]

lemma process_cid_saved (s : Store) (req : ChatRequest) (adapter : ApiParams → AdapterStream)
    (aF : Option String) (tU tEnd : Nat) (cid : String)
    (hcid : cidTruthy req.conversation_id = some cid) (hex : convExists s cid = true) :
    process_streaming_chat s req adapter none aF tU tEnd =
      afterUserSave { s with messages := s.messages ++ [mkUserMessage req cid tU] } req
        (adapter (buildApiParams req)) aF tEnd := by
  have hex2 : convExists s (mkUserMessage req cid tU).conversation_id = true := by
    simpa [mkUserMessage] using hex
  simp only [process_streaming_chat, hcid, commitMessage, hex2, if_true, mkUserMessage]
  rw [if_pos hex]

lemma process_cid_fault (s : Store) (req : ChatRequest) (adapter : ApiParams → AdapterStream)
    (aF : Option String) (tU tEnd : Nat) (cid e : String)
    (hcid : cidTruthy req.conversation_id = some cid) :
    process_streaming_chat s req adapter (some e) aF tU tEnd = ([Event.error e], s) := by
  simp only [process_streaming_chat, hcid, commitMessage]

/-- Under a fault-free user save, the trace of a streaming turn is the status
notification, then the fragment-loop events, then a tail holding no chunk and
no pause. -/
lemma trace_shape (s : Store) (req : ChatRequest) (adapter : ApiParams → AdapterStream)
    (aF : Option String) (tU tEnd : Nat)
    (hConv : ∀ cid, cidTruthy req.conversation_id = some cid → convExists s cid = true) :
    ∃ post, (process_streaming_chat s req adapter none aF tU tEnd).1 =
        statusEvent req.model ::
          ((streamLoop req.model (adapter (buildApiParams req)).fragments "" 0).1 ++ post) ∧
        ∀ e ∈ post, isChunk e = false ∧ e ≠ Event.pause := by
  have hstep : ∀ s1 : Store, ∃ post, (afterUserSave s1 req (adapter (buildApiParams req))
      aF tEnd).1 =
        statusEvent req.model ::
          ((streamLoop req.model (adapter (buildApiParams req)).fragments "" 0).1 ++ post) ∧
        ∀ e ∈ post, isChunk e = false ∧ e ≠ Event.pause := by
    intro s1
    rcases herr : (adapter (buildApiParams req)).error with _ | err
    · rcases hcid : cidTruthy req.conversation_id with _ | cid
      · refine ⟨[Event.complete (sconcat (adapter (buildApiParams req)).fragments) tEnd],
          ?_, ?_⟩
        · rw [afterUserSave_ok_nocid s1 req _ aF tEnd herr hcid]
          rfl
        · intro e he
          simp at he
          subst he
          exact ⟨rfl, by simp⟩
      · by_cases hfull : sconcat (adapter (buildApiParams req)).fragments = ""
        · refine ⟨[Event.complete (sconcat (adapter (buildApiParams req)).fragments) tEnd],
            ?_, ?_⟩
          · rw [afterUserSave_ok_empty s1 req _ aF tEnd cid herr hcid hfull]
            rfl
          · intro e he
            simp at he
            subst he
            exact ⟨rfl, by simp⟩
        · rcases haF : aF with _ | e0
          · by_cases hex1 : convExists s1 cid = true
            · refine ⟨[Event.complete (sconcat (adapter (buildApiParams req)).fragments) tEnd,
                Event.persist "assistant" true], ?_, ?_⟩
              · rw [afterUserSave_ok_persist s1 req _ tEnd cid herr hcid hfull hex1]
                rfl
              · intro e he
                simp at he
                rcases he with rfl | rfl
                · exact ⟨rfl, by simp⟩
                · exact ⟨rfl, by simp⟩
            · have hbeq : (sconcat (adapter (buildApiParams req)).fragments == "") = false :=
                beq_eq_false_iff_ne.mpr hfull
              have hex2 : convExists s1 (mkAssistantMessage req cid
                  (sconcat (adapter (buildApiParams req)).fragments) tEnd).conversation_id
                    = false := by
                simp only [mkAssistantMessage]
                simpa using hex1
              refine ⟨[Event.complete (sconcat (adapter (buildApiParams req)).fragments) tEnd,
                Event.persist "assistant" false], ?_, ?_⟩
              · simp only [afterUserSave, herr, hcid, statusEvent, streamLoop_sconcat, hbeq,
                  Bool.false_eq_true, if_false, commitAssistant, hex2]
                rfl
              · intro e he
                simp at he
                rcases he with rfl | rfl
                · exact ⟨rfl, by simp⟩
                · exact ⟨rfl, by simp⟩
          · refine ⟨[Event.complete (sconcat (adapter (buildApiParams req)).fragments) tEnd,
              Event.persist "assistant" false], ?_, ?_⟩
            · rw [afterUserSave_ok_persist_fail s1 req _ tEnd cid e0 herr hcid hfull]
              rfl
            · intro e he
              simp at he
              rcases he with rfl | rfl
              · exact ⟨rfl, by simp⟩
              · exact ⟨rfl, by simp⟩
    · refine ⟨[Event.error ("Streaming error with " ++ (claudeModelsGet req.model).name ++
        ": " ++ err)], ?_, ?_⟩
      · rw [afterUserSave_err s1 req _ aF tEnd err herr]
        rfl
      · intro e he
        simp at he
        subst he
        exact ⟨rfl, by simp⟩
  rcases hcid : cidTruthy req.conversation_id with _ | cid
  · rw [process_nocid s req adapter none aF tU tEnd hcid]
    exact hstep s
  · rw [process_cid_saved s req adapter aF tU tEnd cid hcid (hConv cid hcid)]
    exact hstep _

/-! ### Claim C8: Opus pacing -/

/-- Claim C8: during a streaming turn with a fault-free user save, the event
immediately after the k-th chunk notification is the pacing pause exactly when
the model is the designated higher-cost one ("claude-opus-4-20250514") and k is
a multiple of 10; turns of any other model contain no pause at all. -/
theorem C8_opus_pacing (s : Store) (req : ChatRequest) (adapter : ApiParams → AdapterStream)
    (aF : Option String) (tU tEnd : Nat) (k : Nat)
    (hConv : ∀ cid, cidTruthy req.conversation_id = some cid → convExists s cid = true)
    (hk1 : 1 ≤ k) (hk2 : k ≤ (adapter (buildApiParams req)).fragments.length) :
    (afterKthChunk (process_streaming_chat s req adapter none aF tU tEnd).1 k =
        some Event.pause ↔
      (req.model = "claude-opus-4-20250514" ∧ k % 10 = 0)) ∧
    (req.model ≠ "claude-opus-4-20250514" →
      Event.pause ∉ (process_streaming_chat s req adapter none aF tU tEnd).1) := by
  obtain ⟨post, htr, hpost⟩ := trace_shape s req adapter aF tU tEnd hConv
  constructor
  · rw [htr, afterKth_cons_nonchunk (by rfl)]
    have h := afterKth_streamLoop req.model (adapter (buildApiParams req)).fragments "" 0 k
      post hpost hk1 hk2
    simpa using h
  · intro hm hmem
    rw [htr] at hmem
    rcases List.mem_cons.mp hmem with h | h
    · exact Event.noConfusion h
    · rcases List.mem_append.mp h with h | h
      · exact streamLoop_no_pause hm _ _ _ h
      · exact (hpost _ h).2 rfl

/-- The empty fixture store. -/
def emptyStore : Store := { conversations := [], messages := [] }

/-- A fixture request for the Opus model, no conversation id. -/
def opusReq : ChatRequest :=
  { message := "hi", conversation_history := [], model := "claude-opus-4-20250514"
    temperature := "0.1", enable_thinking := false, enable_web_search := false
    conversation_id := none }

/-- A fixture adapter producing ten fragments and exhausting normally. -/
def tenFragAdapter : ApiParams → AdapterStream :=
  fun _ => { fragments := ["a", "b", "c", "d", "e", "f", "g", "h", "i", "j"], error := none }

/-- Witness for C8: on an Opus turn with 10 fragments, the event after the 10th
chunk is the pause. -/
theorem C8_witness :
    (1 ≤ 10 ∧ 10 ≤ (tenFragAdapter (buildApiParams opusReq)).fragments.length) ∧
    ((afterKthChunk (process_streaming_chat emptyStore opusReq tenFragAdapter none none
        1 2).1 10 = some Event.pause ↔
      (opusReq.model = "claude-opus-4-20250514" ∧ 10 % 10 = 0)) ∧
    (opusReq.model ≠ "claude-opus-4-20250514" →
      Event.pause ∉ (process_streaming_chat emptyStore opusReq tenFragAdapter none none
        1 2).1)) :=
  ⟨⟨by decide, by decide⟩,
    C8_opus_pacing emptyStore opusReq tenFragAdapter none 1 2 10
      (by intro cid h; simp [opusReq, cidTruthy] at h) (by decide) (by decide)⟩

/-! ### Claim C1: the successful streaming turn -/

/-- Claim C1: a streaming turn whose adapter exhausts without error gives the
client exactly one status notification, then the chunk notifications — the
i-th carrying fragment i and the concatenation of fragments 1..i — then
exactly one complete notification carrying the full concatenation and the
completion timestamp.  If a (truthy) conversation id is present and the
concatenation is non-empty, the assistant Message with that content is
persisted and the conversation's updated-time is set to the completion time,
and this persistence happens after the complete notification in the turn's
trace. -/
theorem C1_streaming_success_turn
    (s : Store) (req : ChatRequest) (adapter : ApiParams → AdapterStream) (tU tEnd : Nat)
    (hErr : (adapter (buildApiParams req)).error = none)
    (hConv : ∀ cid, cidTruthy req.conversation_id = some cid → convExists s cid = true) :
    clientNotifs (process_streaming_chat s req adapter none none tU tEnd).1 =
      statusEvent req.model ::
        expectedChunks "" (adapter (buildApiParams req)).fragments ++
        [Event.complete (sconcat (adapter (buildApiParams req)).fragments) tEnd] ∧
    (cidTruthy req.conversation_id = none →
      (process_streaming_chat s req adapter none none tU tEnd).2 = s) ∧
    (∀ cid, cidTruthy req.conversation_id = some cid →
      sconcat (adapter (buildApiParams req)).fragments = "" →
      (process_streaming_chat s req adapter none none tU tEnd).2 =
        { s with messages := s.messages ++ [mkUserMessage req cid tU] }) ∧
    (∀ cid, cidTruthy req.conversation_id = some cid →
      sconcat (adapter (buildApiParams req)).fragments ≠ "" →
      (process_streaming_chat s req adapter none none tU tEnd).2 =
        { conversations := bumpUpdated s.conversations cid tEnd
          messages := s.messages ++ [mkUserMessage req cid tU,
            mkAssistantMessage req cid (sconcat (adapter (buildApiParams req)).fragments)
              tEnd] } ∧
      ∃ pre, (process_streaming_chat s req adapter none none tU tEnd).1 =
        pre ++ [Event.complete (sconcat (adapter (buildApiParams req)).fragments) tEnd,
          Event.persist "assistant" true]) := by
  refine ⟨?_, ?_, ?_, ?_⟩
  · rcases hcid : cidTruthy req.conversation_id with _ | cid
    · rw [process_nocid s req adapter none none tU tEnd hcid,
        afterUserSave_ok_nocid s req _ none tEnd hErr hcid]
      simp [clientNotifs, List.filter_append, streamLoop_filter_notifs, isClientNotif,
        statusEvent]
    · rw [process_cid_saved s req adapter none tU tEnd cid hcid (hConv cid hcid)]
      by_cases hfull : sconcat (adapter (buildApiParams req)).fragments = ""
      · rw [afterUserSave_ok_empty _ req _ none tEnd cid hErr hcid hfull]
        simp [clientNotifs, List.filter_append, streamLoop_filter_notifs, isClientNotif,
          statusEvent]
      · rw [afterUserSave_ok_persist
        { s with messages := s.messages ++ [mkUserMessage req cid tU] } req _ tEnd cid
        hErr hcid hfull (hConv cid hcid)]
        simp [clientNotifs, List.filter_append, streamLoop_filter_notifs, isClientNotif,
          statusEvent]
  · intro hcid
    rw [process_nocid s req adapter none none tU tEnd hcid,
      afterUserSave_ok_nocid s req _ none tEnd hErr hcid]
  · intro cid hcid hfull
    rw [process_cid_saved s req adapter none tU tEnd cid hcid (hConv cid hcid),
      afterUserSave_ok_empty _ req _ none tEnd cid hErr hcid hfull]
  · intro cid hcid hfull
    rw [process_cid_saved s req adapter none tU tEnd cid hcid (hConv cid hcid),
      afterUserSave_ok_persist
        { s with messages := s.messages ++ [mkUserMessage req cid tU] } req _ tEnd cid
        hErr hcid hfull (hConv cid hcid)]
    constructor
    · simp
    · exact ⟨statusEvent req.model ::
        (streamLoop req.model (adapter (buildApiParams req)).fragments "" 0).1, by simp⟩

/-- A fixture store holding one conversation "c1" and no messages. -/
def helloStore : Store :=
  { conversations := [⟨"c1", "t", 0, 0⟩], messages := [] }

/-- A fixture request naming conversation "c1" on the Sonnet model. -/
def helloReq : ChatRequest :=
  { message := "hi", conversation_history := [], model := "claude-sonnet-4-20250514"
    temperature := "0.1", enable_thinking := false, enable_web_search := false
    conversation_id := some "c1" }

/-- A fixture adapter producing the spec scenario fragments. -/
def helloAdapter : ApiParams → AdapterStream :=
  fun _ => { fragments := ["Hel", "lo"], error := none }

/-- Witness for C1 at the spec's own scenario: fragments ["Hel","lo"] yield
chunk("Hel","Hel"), chunk("lo","Hello"), complete("Hello", 2), and the
assistant Message "Hello" is persisted with updated-time 2. -/
theorem C1_witness :
    ((helloAdapter (buildApiParams helloReq)).error = none ∧
      (∀ cid, cidTruthy helloReq.conversation_id = some cid →
        convExists helloStore cid = true)) ∧
    (clientNotifs (process_streaming_chat helloStore helloReq helloAdapter none none 1 2).1 =
      statusEvent helloReq.model ::
        expectedChunks "" (helloAdapter (buildApiParams helloReq)).fragments ++
        [Event.complete (sconcat (helloAdapter (buildApiParams helloReq)).fragments) 2] ∧
    (cidTruthy helloReq.conversation_id = none →
      (process_streaming_chat helloStore helloReq helloAdapter none none 1 2).2 =
        helloStore) ∧
    (∀ cid, cidTruthy helloReq.conversation_id = some cid →
      sconcat (helloAdapter (buildApiParams helloReq)).fragments = "" →
      (process_streaming_chat helloStore helloReq helloAdapter none none 1 2).2 =
        { helloStore with
          messages := helloStore.messages ++ [mkUserMessage helloReq cid 1] }) ∧
    (∀ cid, cidTruthy helloReq.conversation_id = some cid →
      sconcat (helloAdapter (buildApiParams helloReq)).fragments ≠ "" →
      (process_streaming_chat helloStore helloReq helloAdapter none none 1 2).2 =
        { conversations := bumpUpdated helloStore.conversations cid 2
          messages := helloStore.messages ++ [mkUserMessage helloReq cid 1,
            mkAssistantMessage helloReq cid
              (sconcat (helloAdapter (buildApiParams helloReq)).fragments) 2] } ∧
      ∃ pre, (process_streaming_chat helloStore helloReq helloAdapter none none 1 2).1 =
        pre ++ [Event.complete
            (sconcat (helloAdapter (buildApiParams helloReq)).fragments) 2,
          Event.persist "assistant" true])) :=
  ⟨⟨by decide, by intro cid h; simp [helloReq, cidTruthy] at h; subst h; decide⟩,
    C1_streaming_success_turn helloStore helloReq helloAdapter 1 2 (by decide)
      (by intro cid h; simp [helloReq, cidTruthy] at h; subst h; decide)⟩

/-! ### Claim C2: the failing streaming turn -/

/-- Claim C2: a streaming turn whose adapter raises after emitting k fragments
gives the client the status notification, exactly the k chunk notifications,
then exactly one error notification and nothing after it; no complete
notification exists anywhere in the turn's trace, and the assistant rows of
the store are untouched (only the inbound user row, saved before streaming,
is added when a conversation id is present). -/
theorem C2_streaming_error_turn
    (s : Store) (req : ChatRequest) (adapter : ApiParams → AdapterStream)
    (aF : Option String) (tU tEnd : Nat) (err : String)
    (hErr : (adapter (buildApiParams req)).error = some err)
    (hConv : ∀ cid, cidTruthy req.conversation_id = some cid → convExists s cid = true) :
    clientNotifs (process_streaming_chat s req adapter none aF tU tEnd).1 =
      statusEvent req.model ::
        expectedChunks "" (adapter (buildApiParams req)).fragments ++
        [Event.error ("Streaming error with " ++ (claudeModelsGet req.model).name ++
          ": " ++ err)] ∧
    (∀ msg ts, Event.complete msg ts ∉
      (process_streaming_chat s req adapter none aF tU tEnd).1) ∧
    ((process_streaming_chat s req adapter none aF tU tEnd).2.messages.filter
        (fun m => m.role == "assistant") =
      s.messages.filter fun m => m.role == "assistant") ∧
    (cidTruthy req.conversation_id = none →
      (process_streaming_chat s req adapter none aF tU tEnd).2 = s) ∧
    (∀ cid, cidTruthy req.conversation_id = some cid →
      (process_streaming_chat s req adapter none aF tU tEnd).2 =
        { s with messages := s.messages ++ [mkUserMessage req cid tU] }) := by
  have htr : (process_streaming_chat s req adapter none aF tU tEnd).1 =
      statusEvent req.model ::
        (streamLoop req.model (adapter (buildApiParams req)).fragments "" 0).1 ++
        [Event.error ("Streaming error with " ++ (claudeModelsGet req.model).name ++
          ": " ++ err)] := by
    rcases hcid : cidTruthy req.conversation_id with _ | cid
    · rw [process_nocid s req adapter none aF tU tEnd hcid,
        afterUserSave_err s req _ aF tEnd err hErr]
    · rw [process_cid_saved s req adapter aF tU tEnd cid hcid (hConv cid hcid),
        afterUserSave_err _ req _ aF tEnd err hErr]
  have hst : ∀ cid, cidTruthy req.conversation_id = some cid →
      (process_streaming_chat s req adapter none aF tU tEnd).2 =
        { s with messages := s.messages ++ [mkUserMessage req cid tU] } := by
    intro cid hcid
    rw [process_cid_saved s req adapter aF tU tEnd cid hcid (hConv cid hcid),
      afterUserSave_err _ req _ aF tEnd err hErr]
  refine ⟨?_, ?_, ?_, ?_, hst⟩
  · rw [htr]
    simp [clientNotifs, List.filter_append, streamLoop_filter_notifs, isClientNotif,
      statusEvent]
  · intro msg ts hmem
    rw [htr] at hmem
    rcases List.mem_cons.mp hmem with h | h
    · exact Event.noConfusion h
    · rcases List.mem_append.mp h with h | h
      · rcases streamLoop_mem req.model _ _ _ _ h with ⟨c, fl, hcf⟩ | hp
        · exact Event.noConfusion hcf
        · exact Event.noConfusion hp
      · simp at h
  · rcases hcid : cidTruthy req.conversation_id with _ | cid
    · rw [process_nocid s req adapter none aF tU tEnd hcid,
        afterUserSave_err s req _ aF tEnd err hErr]
    · rw [hst cid hcid]
      simp [mkUserMessage]
  · intro hcid
    rw [process_nocid s req adapter none aF tU tEnd hcid,
      afterUserSave_err s req _ aF tEnd err hErr]

/-- A fixture adapter raising error "boom" after one fragment. -/
def boomAdapter : ApiParams → AdapterStream :=
  fun _ => { fragments := ["Hel"], error := some "boom" }

/-- Witness for C2: one fragment, then an adapter error; the client sees one
chunk and one error, no complete, and no assistant row is written. -/
theorem C2_witness :
    ((boomAdapter (buildApiParams helloReq)).error = some "boom" ∧
      (∀ cid, cidTruthy helloReq.conversation_id = some cid →
        convExists helloStore cid = true)) ∧
    (clientNotifs (process_streaming_chat helloStore helloReq boomAdapter none none 1 2).1 =
      statusEvent helloReq.model ::
        expectedChunks "" (boomAdapter (buildApiParams helloReq)).fragments ++
        [Event.error ("Streaming error with " ++ (claudeModelsGet helloReq.model).name ++
          ": " ++ "boom")] ∧
    (∀ msg ts, Event.complete msg ts ∉
      (process_streaming_chat helloStore helloReq boomAdapter none none 1 2).1) ∧
    ((process_streaming_chat helloStore helloReq boomAdapter none none 1 2).2.messages.filter
        (fun m => m.role == "assistant") =
      helloStore.messages.filter fun m => m.role == "assistant") ∧
    (cidTruthy helloReq.conversation_id = none →
      (process_streaming_chat helloStore helloReq boomAdapter none none 1 2).2 =
        helloStore) ∧
    (∀ cid, cidTruthy helloReq.conversation_id = some cid →
      (process_streaming_chat helloStore helloReq boomAdapter none none 1 2).2 =
        { helloStore with
          messages := helloStore.messages ++ [mkUserMessage helloReq cid 1] })) :=
  ⟨⟨by decide, by intro cid h; simp [helloReq, cidTruthy] at h; subst h; decide⟩,
    C2_streaming_error_turn helloStore helloReq boomAdapter none 1 2 "boom" (by decide)
      (by intro cid h; simp [helloReq, cidTruthy] at h; subst h; decide)⟩

/-! ### Claim C10: unknown model identifiers are forwarded verbatim -/

/-- Claim C10: for a request naming a model identifier absent from the
registry, only max_tokens and the thinking capability come from the default
(sonnet) descriptor; the parameters handed to the upstream client and the
model field of the persisted assistant Message both carry the request's
original identifier. -/
theorem C10_unknown_model_forwarded (req : ChatRequest)
    (hUnknown : CLAUDE_MODELS.lookup req.model = none) :
    (buildApiParams req).model = req.model ∧
    (buildApiParams req).max_tokens = sonnetConfig.max_tokens ∧
    (buildApiParams req).thinking =
      (req.enable_thinking && sonnetConfig.supports_thinking) ∧
    (∀ cid full t, (mkAssistantMessage req cid full t).model = some req.model) ∧
    (∀ s adapter tU tEnd cid,
      cidTruthy req.conversation_id = some cid → convExists s cid = true →
      (adapter (buildApiParams req)).error = none →
      sconcat (adapter (buildApiParams req)).fragments ≠ "" →
      (process_streaming_chat s req adapter none none tU tEnd).2.messages.getLast? =
        some (mkAssistantMessage req cid
          (sconcat (adapter (buildApiParams req)).fragments) tEnd)) := by
  have hget : claudeModelsGet req.model = sonnetConfig := by
    unfold claudeModelsGet
    rw [hUnknown]
  refine ⟨rfl, by simp [buildApiParams, hget], by simp [buildApiParams, hget],
    fun cid full t => rfl, ?_⟩
  intro s adapter tU tEnd cid hcid hex herr hfull
  rw [process_cid_saved s req adapter none tU tEnd cid hcid hex,
    afterUserSave_ok_persist
      { s with messages := s.messages ++ [mkUserMessage req cid tU] } req _ tEnd cid
      herr hcid hfull hex]
  exact List.getLast?_concat _

/-- A fixture request naming conversation "c1" and an unregistered model. -/
def unknownModelReq : ChatRequest :=
  { message := "hi", conversation_history := [], model := "my-fancy-model"
    temperature := "0.7", enable_thinking := true, enable_web_search := false
    conversation_id := some "c1" }

/-- Witness for C10 at the unregistered identifier "my-fancy-model". -/
theorem C10_witness :
    CLAUDE_MODELS.lookup unknownModelReq.model = none ∧
    ((buildApiParams unknownModelReq).model = unknownModelReq.model ∧
    (buildApiParams unknownModelReq).max_tokens = sonnetConfig.max_tokens ∧
    (buildApiParams unknownModelReq).thinking =
      (unknownModelReq.enable_thinking && sonnetConfig.supports_thinking) ∧
    (∀ cid full t, (mkAssistantMessage unknownModelReq cid full t).model =
      some unknownModelReq.model) ∧
    (∀ s adapter tU tEnd cid,
      cidTruthy unknownModelReq.conversation_id = some cid → convExists s cid = true →
      (adapter (buildApiParams unknownModelReq)).error = none →
      sconcat (adapter (buildApiParams unknownModelReq)).fragments ≠ "" →
      (process_streaming_chat s unknownModelReq adapter none none tU tEnd).2.messages.getLast? =
        some (mkAssistantMessage unknownModelReq cid
          (sconcat (adapter (buildApiParams unknownModelReq)).fragments) tEnd))) :=
  ⟨by decide, C10_unknown_model_forwarded unknownModelReq (by decide)⟩

/-! ### Claim C3: user-turn persistence failure -/

/-- Counterexample to claim C3 as stated: with a conversation id present and a
user-turn commit failure ("disk full"), the adapter holds the reply fragments
["Hel","lo"], yet the streaming turn emits only the single error notification
(no status, no chunk, no complete — the upstream completion is never invoked)
and the non-streaming handler fails the whole request with a 500 instead of
returning the reply. -/
theorem C3_counterexample :
    (helloAdapter (buildApiParams helloReq)).fragments = ["Hel", "lo"] ∧
    process_streaming_chat helloStore helloReq helloAdapter (some "disk full") none 1 2 =
      ([Event.error "disk full"], helloStore) ∧
    chat_endpoint helloStore helloReq helloAdapter (some "disk full") none 1 2 =
      (Except.error "disk full", helloStore) :=
  ⟨rfl, rfl, rfl⟩

/-- Claim C3 (amended): a failure to persist the inbound user-turn Message
aborts the turn instead of letting it proceed.  The streaming handler rolls
back, emits exactly one error notification carrying the commit error and ends
the turn without invoking the upstream completion; the non-streaming handler
fails the request with that error and returns no reply.  In both cases the
store is unchanged. -/
theorem C3_user_persistence_failure_aborts
    (s : Store) (req : ChatRequest) (adapter : ApiParams → AdapterStream)
    (aF : Option String) (tU tEnd : Nat) (e cid : String)
    (hcid : cidTruthy req.conversation_id = some cid) :
    process_streaming_chat s req adapter (some e) aF tU tEnd = ([Event.error e], s) ∧
    chat_endpoint s req adapter (some e) aF tU tEnd = (Except.error e, s) := by
  constructor
  · exact process_cid_fault s req adapter aF tU tEnd cid e hcid
  · simp only [chat_endpoint, hcid, commitMessage]

/-- Witness for C3 (amended) at concrete inputs. -/
theorem C3_witness :
    cidTruthy helloReq.conversation_id = some "c1" ∧
    (process_streaming_chat helloStore helloReq helloAdapter (some "io error") none 1 2 =
      ([Event.error "io error"], helloStore) ∧
    chat_endpoint helloStore helloReq helloAdapter (some "io error") none 1 2 =
      (Except.error "io error", helloStore)) :=
  ⟨by decide,
    C3_user_persistence_failure_aborts helloStore helloReq helloAdapter none 1 2
      "io error" "c1" (by decide)⟩

/-! ### Claim C4: which operations bump updated_at -/

/-- A fixture adapter producing no fragments at all (empty reply). -/
def emptyReplyAdapter : ApiParams → AdapterStream :=
  fun _ => { fragments := [], error := none }

/-- Counterexample to claim C4 as stated: a streaming turn on conversation
"c1" (updated_at = 0) persists the inbound user Message at time 5 but does not
touch the conversation row, so afterwards the conversation's updated timestamp
(0) is smaller than the creation timestamp of its newest Message (5) — the
user-message append does not bump updated-time and the claimed invariant fails
in a reachable state. -/
theorem C4_counterexample :
    (process_streaming_chat helloStore helloReq emptyReplyAdapter none none 5 5).2 =
      { conversations := [⟨"c1", "t", 0, 0⟩]
        messages := [⟨"c1", "user", "hi", none, "0.1", false, 5⟩] } ∧
    updatedGeNewest
      (process_streaming_chat helloStore helloReq emptyReplyAdapter none none 5 5).2 =
        false :=
  ⟨rfl, rfl⟩

/-- Claim C4 (amended): the assistant-message append and the title-change
operations set the target conversation's updated timestamp to the operation's
time, but the user-message append leaves every conversation row untouched — so
updated-time tracks assistant appends and title changes only, and can lag
behind the newest (user) Message. -/
theorem C4_assistant_and_title_bump :
    (∀ (s : Store) (m : Message) (t : Nat) (s' : Store),
      commitAssistant s m t none = Except.ok s' →
      ∀ c ∈ s'.conversations, c.id = m.conversation_id → c.updated_at = t) ∧
    (∀ (s : Store) (cid : String) (nt : Option String) (t : Nat) (s' : Store),
      update_conversation_title s cid nt t = Except.ok s' →
      ∀ c ∈ s'.conversations, c.id = cid → c.updated_at = t) ∧
    (∀ (s : Store) (m : Message) (f : Option String) (s' : Store),
      commitMessage s m f = Except.ok s' → s'.conversations = s.conversations) := by
  refine ⟨?_, ?_, ?_⟩
  · intro s m t s' h
    simp only [commitAssistant] at h
    split at h
    · rcases h with ⟨⟩
      intro c hc hcid
      simp only [bumpUpdated, List.mem_map] at hc
      obtain ⟨d, hd, hdc⟩ := hc
      by_cases hb : (d.id == m.conversation_id) = true
      · rw [if_pos hb] at hdc
        rw [← hdc]
      · rw [if_neg hb] at hdc
        subst hdc
        exact absurd (beq_iff_eq.mpr hcid) hb
    · simp at h
  · intro s cid nt t s' h
    simp only [update_conversation_title] at h
    rcases hfind : s.conversations.find? (fun c => c.id == cid) with _ | cv
    · rw [hfind] at h
      simp at h
    · rw [hfind] at h
      rcases h with ⟨⟩
      intro c hc hcid
      simp only [List.mem_map] at hc
      obtain ⟨d, hd, hdc⟩ := hc
      by_cases hb : (d.id == cid) = true
      · rw [if_pos hb] at hdc
        rw [← hdc]
      · rw [if_neg hb] at hdc
        subst hdc
        exact absurd (beq_iff_eq.mpr hcid) hb
  · intro s m f s' h
    rcases f with _ | e
    · simp only [commitMessage] at h
      split at h
      · rcases h with ⟨⟩
        rfl
      · simp at h
    · simp only [commitMessage] at h
      simp at h

/-- A fixture assistant message for conversation "c1" created at time 7. -/
def aMsg7 : Message :=
  { conversation_id := "c1", role := "assistant", content := "yo"
    model := some "claude-sonnet-4-20250514", temperature := "0.1"
    thinking_enabled := false, created_at := 7 }

/-- A fixture user message for conversation "c1" created at time 5. -/
def uMsg5 : Message :=
  { conversation_id := "c1", role := "user", content := "hi", model := none
    temperature := "0.1", thinking_enabled := false, created_at := 5 }

/-- The store after committing `aMsg7` into `helloStore` at time 7. -/
def c4Bumped : Store :=
  { conversations := [⟨"c1", "t", 0, 7⟩], messages := [aMsg7] }

/-- The store after retitling "c1" in `helloStore` at time 9. -/
def c4Titled : Store :=
  { conversations := [⟨"c1", "new title", 0, 9⟩], messages := [] }

/-- The store after committing `uMsg5` into `helloStore`. -/
def c4UserSaved : Store :=
  { conversations := [⟨"c1", "t", 0, 0⟩], messages := [uMsg5] }

/-- Witness for C4 (amended) at concrete stores: the assistant append sets
updated_at to 7, the title change sets it to 9, the user append leaves the
conversation rows unchanged. -/
theorem C4_witness :
    (commitAssistant helloStore aMsg7 7 none = Except.ok c4Bumped ∧
      ∀ c ∈ c4Bumped.conversations, c.id = aMsg7.conversation_id → c.updated_at = 7) ∧
    (update_conversation_title helloStore "c1" (some "new title") 9 =
        Except.ok c4Titled ∧
      ∀ c ∈ c4Titled.conversations, c.id = "c1" → c.updated_at = 9) ∧
    (commitMessage helloStore uMsg5 none = Except.ok c4UserSaved ∧
      c4UserSaved.conversations = helloStore.conversations) :=
  ⟨⟨rfl, C4_assistant_and_title_bump.1 helloStore aMsg7 7 c4Bumped rfl⟩,
    ⟨rfl, C4_assistant_and_title_bump.2.1 helloStore "c1" (some "new title") 9 c4Titled rfl⟩,
    ⟨rfl, C4_assistant_and_title_bump.2.2 helloStore uMsg5 none c4UserSaved rfl⟩⟩

/-! ### Claim C7: title generation -/

lemma mk_reverse_word (cur : List Char) (hne : cur.isEmpty = false)
    (hcur : ∀ c ∈ cur, pyIsSpace c = false) :
    String.mk cur.reverse ≠ "" ∧ ∀ c ∈ (String.mk cur.reverse).data, pyIsSpace c = false := by
  constructor
  · intro h
    have hdata : cur.reverse = [] := by
      have := congrArg String.data h
      simpa using this
    have : cur = [] := by simpa using hdata
    rw [this] at hne
    simp at hne
  · intro c hc
    exact hcur c (List.mem_reverse.mp hc)

/-- Every word produced by the Python whitespace split is non-empty and free
of whitespace. -/
lemma pySplitAux_sound :
    ∀ (l cur : List Char), (∀ c ∈ cur, pyIsSpace c = false) →
      ∀ w ∈ pySplitAux l cur, w ≠ "" ∧ ∀ c ∈ w.data, pyIsSpace c = false := by
  intro l
  induction l with
  | nil =>
    intro cur hcur w hw
    simp only [pySplitAux] at hw
    rcases hne : cur.isEmpty with _ | _
    · rw [hne] at hw
      simp at hw
      subst hw
      exact mk_reverse_word cur hne hcur
    · rw [hne] at hw
      simp at hw
  | cons c rest ih =>
    intro cur hcur w hw
    simp only [pySplitAux] at hw
    by_cases hsp : pyIsSpace c = true
    · rw [if_pos hsp] at hw
      rcases hne : cur.isEmpty with _ | _
      · rw [hne] at hw
        rcases List.mem_cons.mp hw with rfl | hw2
        · exact mk_reverse_word cur hne hcur
        · exact ih [] (by simp) w hw2
      · rw [hne] at hw
        exact ih [] (by simp) w hw
    · rw [if_neg hsp] at hw
      refine ih (c :: cur) ?_ w hw
      intro x hx
      rcases List.mem_cons.mp hx with rfl | hx2
      · simpa using hsp
      · exact hcur x hx2

lemma pySplit_sound (s : String) :
    ∀ w ∈ pySplit s, w ≠ "" ∧ ∀ c ∈ w.data, pyIsSpace c = false :=
  pySplitAux_sound s.data [] (by simp)

/-- Claim C7: on a conversation that exists and has at least one message, the
title generator consults only the first ≤5 messages (the prompt is built over
`firstFiveMessages`, whose length is at most 5).  When the completion
succeeds, the stored and returned title is the cleaned reply limited to at
most 4 whitespace-free words; on any generation failure, the stored and
returned title is deterministically the 30-character excerpt of the first
message's content (with an ellipsis when truncated). -/
theorem C7_generate_title (s : Store) (cid : String)
    (gen : String → Except String String) (t : Nat) (cv : Conversation)
    (m0 : Message) (rest : List Message)
    (hfind : s.conversations.find? (fun c => c.id == cid) = some cv)
    (hmsgs : firstFiveMessages s cid = m0 :: rest) :
    (firstFiveMessages s cid).length ≤ 5 ∧
    (∀ txt, gen (buildTitlePrompt (firstFiveMessages s cid)) = Except.ok txt →
      generate_conversation_title s cid gen t =
        Except.ok (fourWordTitle txt, setTitle s cid (fourWordTitle txt) t) ∧
      ∃ ws : List String, ws.length ≤ 4 ∧
        (∀ w ∈ ws, w ≠ "" ∧ ∀ c ∈ w.data, pyIsSpace c = false) ∧
        fourWordTitle txt = spaceJoin ws) ∧
    (∀ e, gen (buildTitlePrompt (firstFiveMessages s cid)) = Except.error e →
      generate_conversation_title s cid gen t =
        Except.ok (fallbackTitle m0.content, setTitle s cid (fallbackTitle m0.content) t)) := by
  refine ⟨?_, ?_, ?_⟩
  · unfold firstFiveMessages
    exact List.length_take_le _ _
  · intro txt hgen
    rw [hmsgs] at hgen
    constructor
    · simp only [generate_conversation_title, hfind, hmsgs, hgen]
    · refine ⟨(pySplit (pyTitleClean txt)).take 4, List.length_take_le _ _, ?_, rfl⟩
      intro w hw
      exact pySplit_sound (pyTitleClean txt) w (List.mem_of_mem_take hw)
  · intro e hgen
    rw [hmsgs] at hgen
    simp only [generate_conversation_title, hfind, hmsgs, hgen]

/-- A fixture store: conversation "c1" with one user message. -/
def titleStore : Store :=
  { conversations := [⟨"c1", "t", 0, 0⟩]
    messages := [⟨"c1", "user", "hello there", none, "0.1", false, 1⟩] }

/-- A fixture title generator that always succeeds with a five-word reply. -/
def okTitleGen : String → Except String String :=
  fun _ => Except.ok "Greeting and smalltalk opener text"

/-- Witness for C7 at a concrete conversation with one message, exercising the
theorem's statement at that input. -/
theorem C7_witness :
    titleStore.conversations.find? (fun c => c.id == "c1") = some ⟨"c1", "t", 0, 0⟩ ∧
    firstFiveMessages titleStore "c1" =
      [⟨"c1", "user", "hello there", none, "0.1", false, 1⟩] ∧
    ((firstFiveMessages titleStore "c1").length ≤ 5 ∧
    (∀ txt, okTitleGen
        (buildTitlePrompt (firstFiveMessages titleStore "c1")) = Except.ok txt →
      generate_conversation_title titleStore "c1" okTitleGen 9 =
        Except.ok (fourWordTitle txt, setTitle titleStore "c1" (fourWordTitle txt) 9) ∧
      ∃ ws : List String, ws.length ≤ 4 ∧
        (∀ w ∈ ws, w ≠ "" ∧ ∀ c ∈ w.data, pyIsSpace c = false) ∧
        fourWordTitle txt = spaceJoin ws) ∧
    (∀ e, okTitleGen
        (buildTitlePrompt (firstFiveMessages titleStore "c1")) = Except.error e →
      generate_conversation_title titleStore "c1" okTitleGen 9 =
        Except.ok (fallbackTitle
            (⟨"c1", "user", "hello there", none, "0.1", false, 1⟩ : Message).content,
          setTitle titleStore "c1"
            (fallbackTitle
              (⟨"c1", "user", "hello there", none, "0.1", false, 1⟩ : Message).content)
            9))) :=
  ⟨rfl, rfl,
    C7_generate_title titleStore "c1" okTitleGen 9
      ⟨"c1", "t", 0, 0⟩ ⟨"c1", "user", "hello there", none, "0.1", false, 1⟩ [] rfl rfl⟩

end ClaudeChat
